import Mathlib

/-!
Verification development for the statement-editor core
(`statement_editor/statements/utils.py`): a shallow embedding of the
amount tokenizer, line normalizer, metadata extractor, layout
classifier, the PostValue and TxnValue statement parsers, the parsing
dispatcher and the table renderer, together with theorems about them.

Text lines are `String`s; the internal character-level processing is
done on `List Char`.  Monetary values are modelled as `ℚ` (the spec's
`decimal`); Python regular-expression constructs are modelled by
deterministic matchers that reproduce the backtracking behaviour of the
concrete patterns used in the source on ASCII text.
-/

namespace StatementEditor

/-- ASCII digit test, modelling the character class `\d` / `[0-9]`
as it applies to the statement text. -/
def isDig (c : Char) : Bool := 48 ≤ c.toNat && c.toNat ≤ 57

/-- ASCII letter test, modelling the character class `[A-Za-z]`. -/
def isAsciiAlpha (c : Char) : Bool :=
  (65 ≤ c.toNat && c.toNat ≤ 90) || (97 ≤ c.toNat && c.toNat ≤ 122)

/-- ASCII whitespace test, modelling the character class `\s`. -/
def isSpaceChar (c : Char) : Bool :=
  c = ' ' || c = '\t' || c = '\n' || c = '\r' || c = '\x0b' || c = '\x0c'

/-- Word-character test, modelling `\w` (used for the `\b` boundary). -/
def isWordChar (c : Char) : Bool := isDig c || isAsciiAlpha c || c = '_'

/-- ASCII upcasing of one character, modelling `str.upper` on the
statement text. -/
def upChar (c : Char) : Char :=
  if 97 ≤ c.toNat && c.toNat ≤ 122 then Char.ofNat (c.toNat - 32) else c

/-- ASCII downcasing of one character, modelling `str.lower`. -/
def lowChar (c : Char) : Char :=
  if 65 ≤ c.toNat && c.toNat ≤ 90 then Char.ofNat (c.toNat + 32) else c

/-- Drop leading whitespace (`str.lstrip`). -/
def lstripL (cs : List Char) : List Char := cs.dropWhile isSpaceChar

/-- Drop trailing whitespace (`str.rstrip`). -/
def rstripL (cs : List Char) : List Char := (cs.reverse.dropWhile isSpaceChar).reverse

/-- Drop surrounding whitespace (`str.strip`). -/
def stripL (cs : List Char) : List Char := rstripL (lstripL cs)

/-- Substring test: `pat` occurs somewhere in `hay` (Python `pat in hay`). -/
def hasSub (hay pat : List Char) : Bool :=
  if pat.isPrefixOf hay then true
  else
    match hay with
    | [] => false
    | _ :: t => hasSub t pat

/-- The part of `hay` after the last non-overlapping occurrence of `pat`,
scanning left to right; the whole of `hay` when `pat` does not occur.
This is Python `hay.split(pat)[-1]`. -/
def afterLastSubAux : Nat → List Char → List Char → List Char
  | _, hay, [] => hay
  | 0, hay, _ => hay
  | f + 1, hay, pat =>
    if pat.isPrefixOf hay then afterLastSubAux f (hay.drop pat.length) pat
    else
      match hay with
      | [] => []
      | c :: t => if hasSub t pat then afterLastSubAux f t pat else c :: t

/-- See `afterLastSubAux`; fuel is the length of the haystack. -/
def afterLastSub (hay pat : List Char) : List Char :=
  afterLastSubAux (hay.length + 1) hay pat

/-- Replace every non-overlapping occurrence of `pat` in `hay` by `repl`,
scanning left to right (Python `hay.replace(pat, repl)`). -/
def replaceSubAux : Nat → List Char → List Char → List Char → List Char
  | 0, hay, _, _ => hay
  | f + 1, hay, pat, repl =>
    if !pat.isEmpty && pat.isPrefixOf hay then
      repl ++ replaceSubAux f (hay.drop pat.length) pat repl
    else
      match hay with
      | [] => []
      | c :: t => c :: replaceSubAux f t pat repl

/-- See `replaceSubAux`; fuel is the length of the haystack. -/
def replaceSub (hay pat repl : List Char) : List Char :=
  replaceSubAux (hay.length + 1) hay pat repl

/-- Split on every character satisfying `p`, keeping empty pieces
(Python `re.split` on a single-character alternation). -/
def splitOnPred (p : Char → Bool) : List Char → List (List Char)
  | [] => [[]]
  | c :: t =>
    match splitOnPred p t with
    | [] => [[]]
    | h :: r => if p c then [] :: h :: r else (c :: h) :: r

/-- Whitespace-delimited tokens of a string (Python `str.split()`). -/
def wsTokens (cs : List Char) : List (List Char) :=
  (splitOnPred isSpaceChar cs).filter (fun t => !t.isEmpty)

/-- Join pieces with a separator (Python `sep.join(parts)`). -/
def joinWith (sep : List Char) (parts : List (List Char)) : List Char :=
  List.intercalate sep parts

/-- Collapse runs of whitespace to single spaces and strip the ends:
Python `re.sub(r"\s+", " ", s).strip()`. -/
def collapseStrip (cs : List Char) : List Char := joinWith [' '] (wsTokens cs)

/-- Python `s.split(None, 1)`: at most two pieces, leading whitespace of
each piece removed, trailing whitespace kept on the remainder. -/
def splitOnce (cs : List Char) : List (List Char) :=
  let t := lstripL cs
  if t.isEmpty then []
  else
    let w := t.takeWhile (fun c => !isSpaceChar c)
    let r := lstripL (t.drop w.length)
    if r.isEmpty then [w] else [w, r]

/-- The part of `cs` before its last space character, or all of `cs` when
it has no space: Python `cs.rsplit(" ", 1)[0]`. -/
def beforeLastSpace (cs : List Char) : List Char :=
  match cs.reverse.findIdx? (fun c => c = ' ') with
  | some i => cs.take (cs.length - 1 - i)
  | none => cs

/-- Rightmost index at which `pat` occurs in `hay` (Python `hay.rfind(pat)`),
`none` when it does not occur. -/
def rfindSub (hay pat : List Char) : Option Nat :=
  ((List.range (hay.length + 1)).filter (fun i => pat.isPrefixOf (hay.drop i))).getLast?

/-- Case-insensitive prefix test: `pat` is given upper-cased and is
compared against the upcased head of `cs`. -/
def ciPrefix (pat : String) (cs : List Char) : Bool :=
  pat.data.isPrefixOf (cs.map upChar)

/-- Value of a digit string (most significant digit first). -/
def digitsToNat (l : List Char) : Nat := l.foldl (fun a c => a * 10 + (c.toNat - 48)) 0

/-- Decimal parsing of a string over the alphabet `[0-9.-]`, with the
acceptance behaviour of Python `float` restricted to that alphabet:
an optional leading minus sign, then digits with at most one point and
at least one digit.  `none` models `float` raising `ValueError`. -/
def parseDecimal (cs : List Char) : Option ℚ :=
  let signed : Bool × List Char :=
    match cs with
    | '-' :: r => (true, r)
    | _ => (false, cs)
  let t := signed.2
  if t.isEmpty then none
  else
    let intPart := t.takeWhile isDig
    let rest := t.drop intPart.length
    let mag : Option ℚ :=
      match rest with
      | [] => if intPart.isEmpty then none else some ((digitsToNat intPart : ℚ))
      | '.' :: fr =>
        if fr.all isDig && (!intPart.isEmpty || !fr.isEmpty) then
          some (Rat.divInt ((digitsToNat intPart * 10 ^ fr.length + digitsToNat fr : ℕ) : ℤ)
            ((10 ^ fr.length : ℕ) : ℤ))
        else none
      | _ => none
    match mag with
    | none => none
    | some q => some (if signed.1 then -q else q)

/-- Embedding of `_parse_amount` (utils.py lines 18-30): upcase, strip
`CR`/`DR`, strip commas, normalize non-breaking spaces, turn `(` into a
minus sign and drop `)`, keep only `[0-9.-]`, strip, and parse as a
decimal; empty, `"-"`, `"."` or unparseable input gives `0.0`. -/
def parse_amount (s : String) : ℚ :=
  if s.data.isEmpty then 0
  else
    let u := s.data.map upChar
    let s1 := replaceSub u "CR".data []
    let s2 := replaceSub s1 "DR".data []
    let s3 := s2.filter (fun c => c ≠ ',')
    let s4 := s3.map (fun c => if c = '\u00A0' then ' ' else c)
    let s5 := s4.map (fun c => if c = '(' then '-' else c)
    let s6 := s5.filter (fun c => c ≠ ')')
    let s7 := stripL (s6.filter (fun c => isDig c || c = '.' || c = '-'))
    if s7 = [] || s7 = ['-'] || s7 = ['.'] then 0
    else (parseDecimal s7).getD 0

/-- The spec's rule list for `AmountToken` (§4.1), written out in the
order the spec states it: uppercase; strip `CR`/`DR`; strip thousands
separators; normalize non-breaking space; convert a parenthesized value
to a negated value; strip characters outside `[0-9.-]`; return `0.0`
for empty, `"-"` or `"."`; otherwise parse as a decimal, degrading to
`0.0` on failure. -/
def amountToken_spec (s : String) : ℚ :=
  if s.data.isEmpty then 0
  else
    let step1 := s.data.map upChar
    let step2 := replaceSub (replaceSub step1 "CR".data []) "DR".data []
    let step3 := step2.filter (fun c => c ≠ ',')
    let step4 := step3.map (fun c => if c = '\u00A0' then ' ' else c)
    let step5 := (step4.map (fun c => if c = '(' then '-' else c)).filter (fun c => c ≠ ')')
    let step6 := stripL (step5.filter (fun c => isDig c || c = '.' || c = '-'))
    if step6 = [] || step6 = ['-'] || step6 = ['.'] then 0
    else (parseDecimal step6).getD 0

/-- Match test for `^\d{1,2}\s+[A-Za-z]{3}$` (`day_mon_re`, utils.py line 52). -/
def dayMonB (cs : List Char) : Bool :=
  let ds := cs.takeWhile isDig
  let r1 := cs.dropWhile isDig
  let ws := r1.takeWhile isSpaceChar
  let r2 := r1.dropWhile isSpaceChar
  decide (1 ≤ ds.length) && decide (ds.length ≤ 2) && decide (1 ≤ ws.length) &&
    decide (r2.length = 3) && r2.all isAsciiAlpha

/-- Match test for `^\d{4}$` (`year_re`, utils.py line 53). -/
def yearB (cs : List Char) : Bool := decide (cs.length = 4) && cs.all isDig

/-- Match test for `^\d{1,2}$` (`short_day_re`, utils.py line 54). -/
def shortDayB (cs : List Char) : Bool :=
  (decide (cs.length = 1) || decide (cs.length = 2)) && cs.all isDig

/-- Match test for `^[A-Za-z]{3}$` (`short_mon_re`, utils.py line 55). -/
def shortMonB (cs : List Char) : Bool := decide (cs.length = 3) && cs.all isAsciiAlpha

/-- Fuelled worker for `_normalize_multiline_dates`: merge a `day Mon` line
followed by a `year` line into one line, or a bare day, month and year on
three consecutive lines into one line, scanning once left to right.
The fuel only drives the recursion; it is at least the list length at
every call, so the `0` fallback is never reached from
`normalize_multiline_dates`. -/
def normAux : Nat → List String → List String
  | 0, l => l
  | _, [] => []
  | _ + 1, [a] => [a]
  | f + 1, a :: b :: rest =>
    if dayMonB a.data && yearB b.data then
      (a ++ " " ++ b) :: normAux f rest
    else
      match rest with
      | [] => a :: normAux f [b]
      | c :: rest2 =>
        if shortDayB a.data && shortMonB b.data && yearB c.data then
          (a ++ " " ++ b ++ " " ++ c) :: normAux f rest2
        else
          a :: normAux f (b :: c :: rest2)

/-- Embedding of `_normalize_multiline_dates` (utils.py lines 49-68). -/
def normalize_multiline_dates (l : List String) : List String := normAux l.length l

@[simp] theorem isDig_space : isDig ' ' = false := rfl

@[simp] theorem isAsciiAlpha_space : isAsciiAlpha ' ' = false := rfl

theorem not_isDig_of_isAsciiAlpha {c : Char} (h : isAsciiAlpha c = true) : isDig c = false := by
  rw [Bool.eq_false_iff]
  intro hd
  simp only [isAsciiAlpha, Bool.or_eq_true, Bool.and_eq_true, decide_eq_true_eq] at h
  simp only [isDig, Bool.and_eq_true, decide_eq_true_eq] at hd
  omega

/-- The chosen fuel does not matter as long as it covers the list length. -/
theorem normAux_congr : ∀ f g : Nat, ∀ L : List String,
    L.length ≤ f → L.length ≤ g → normAux f L = normAux g L := by
  intro f
  induction f with
  | zero =>
    intro g L h1 _
    have : L = [] := List.eq_nil_of_length_eq_zero (Nat.le_zero.mp h1)
    subst this
    cases g <;> rfl
  | succ f ih =>
    intro g L h1 h2
    match L, g with
    | [], g => cases g <;> rfl
    | [a], g + 1 => rfl
    | a :: b :: rest, g + 1 =>
      simp only [List.length_cons] at h1 h2
      simp only [normAux]
      cases hc : dayMonB a.data && yearB b.data
      · cases rest with
        | nil =>
          simp only [hc, Bool.false_eq_true, if_false]
          rw [ih g [b] (by simp only [List.length_cons, List.length_nil]; omega)
            (by simp only [List.length_cons, List.length_nil]; omega)]
        | cons c rest2 =>
          simp only [hc, Bool.false_eq_true, if_false]
          cases hc3 : shortDayB a.data && shortMonB b.data && yearB c.data
          · simp only [hc3, Bool.false_eq_true, if_false]
            simp only [List.length_cons] at h1 h2
            rw [ih g (b :: c :: rest2) (by simp; omega) (by simp; omega)]
          · simp only [hc3, if_true]
            simp only [List.length_cons] at h1 h2
            rw [ih g rest2 (by omega) (by omega)]
      · simp only [hc, if_true]
        rw [ih g rest (by omega) (by omega)]

/-- A line matched by `day_mon_re` ends in an ASCII letter. -/
theorem dayMonB_getLast {cs : List Char} (h : dayMonB cs = true) :
    ∃ c, cs.getLast? = some c ∧ isAsciiAlpha c = true := by
  simp only [dayMonB, Bool.and_eq_true, decide_eq_true_eq] at h
  obtain ⟨⟨⟨⟨_, _⟩, _⟩, hlen⟩, hall⟩ := h
  set r2 := (cs.dropWhile isDig).dropWhile isSpaceChar with hr2
  have hne : r2 ≠ [] := by
    intro hnil
    rw [hnil] at hlen
    simp at hlen
  have hdecomp : cs = cs.takeWhile isDig ++ ((cs.dropWhile isDig).takeWhile isSpaceChar ++ r2) := by
    rw [hr2, List.takeWhile_append_dropWhile, List.takeWhile_append_dropWhile]
  refine ⟨r2.getLast hne, ?_, ?_⟩
  · conv in cs.getLast? => rw [hdecomp]
    rw [List.getLast?_append_of_ne_nil _ (List.append_ne_nil_of_right_ne_nil _ hne),
      List.getLast?_append_of_ne_nil _ hne, List.getLast?_eq_getLast r2 hne]
  · exact List.all_eq_true.mp hall _ (List.getLast_mem hne)

/-- A merged line, being some text followed by a space and a digit run,
matches none of the four date patterns. -/
theorem merged_noPat_char {p y : List Char} (hy : y ≠ []) (hall : y.all isDig = true) :
    dayMonB (p ++ ' ' :: y) = false ∧ yearB (p ++ ' ' :: y) = false ∧
    shortDayB (p ++ ' ' :: y) = false ∧ shortMonB (p ++ ' ' :: y) = false := by
  have hdigfail : (p ++ ' ' :: y).all isDig = false := by
    rw [Bool.eq_false_iff]
    intro hx
    have := List.all_eq_true.mp hx ' ' (by simp)
    simp at this
  have halphafail : (p ++ ' ' :: y).all isAsciiAlpha = false := by
    rw [Bool.eq_false_iff]
    intro hx
    have := List.all_eq_true.mp hx ' ' (by simp)
    simp at this
  refine ⟨?_, ?_, ?_, ?_⟩
  · rw [Bool.eq_false_iff]
    intro hdm
    obtain ⟨c, hlast, halpha⟩ := dayMonB_getLast hdm
    rw [List.getLast?_append_of_ne_nil _ (by simp),
      show (' ' :: y) = [' '] ++ y from rfl, List.getLast?_append_of_ne_nil _ hy,
      List.getLast?_eq_getLast y hy] at hlast
    have hc : c = y.getLast hy := by
      exact (Option.some.inj hlast).symm
    have : isDig c = true := by
      rw [hc]
      exact List.all_eq_true.mp hall _ (List.getLast_mem hy)
    rw [not_isDig_of_isAsciiAlpha halpha] at this
    cases this
  · simp [yearB, hdigfail]
  · simp [shortDayB, hdigfail]
  · simp [shortMonB, halphafail]

/-- A line on which none of the four date patterns matches (the shape of
every line produced by a merge). -/
def noPatB (s : String) : Prop :=
  dayMonB s.data = false ∧ yearB s.data = false ∧
  shortDayB s.data = false ∧ shortMonB s.data = false

theorem merged2_noPat {a b : String} (hb : yearB b.data = true) : noPatB (a ++ " " ++ b) := by
  have hdata : (a ++ " " ++ b).data = a.data ++ ' ' :: b.data := by
    simp [String.data_append]
  have hd : b.data.all isDig = true := by
    simp only [yearB, Bool.and_eq_true] at hb
    exact hb.2
  have hbne : b.data ≠ [] := by
    simp only [yearB, Bool.and_eq_true, decide_eq_true_eq] at hb
    intro h
    rw [h] at hb
    simp at hb
  unfold noPatB
  rw [hdata]
  exact merged_noPat_char hbne hd

theorem merged3_noPat {a b c : String} (hc : yearB c.data = true) :
    noPatB (a ++ " " ++ b ++ " " ++ c) := by
  have hdata : (a ++ " " ++ b ++ " " ++ c).data = (a.data ++ ' ' :: b.data) ++ ' ' :: c.data := by
    simp [String.data_append]
  have hd : c.data.all isDig = true := by
    simp only [yearB, Bool.and_eq_true] at hc
    exact hc.2
  have hcne : c.data ≠ [] := by
    simp only [yearB, Bool.and_eq_true, decide_eq_true_eq] at hc
    intro h
    rw [h] at hc
    simp at hc
  unfold noPatB
  rw [hdata]
  exact merged_noPat_char hcne hd

theorem norm_single (a : String) : normalize_multiline_dates [a] = [a] := rfl

theorem norm_merge2 {a b : String} {rest : List String}
    (h : (dayMonB a.data && yearB b.data) = true) :
    normalize_multiline_dates (a :: b :: rest) =
      (a ++ " " ++ b) :: normalize_multiline_dates rest := by
  show normAux (a :: b :: rest).length _ = _
  simp only [List.length_cons, normAux, h, if_true]
  rw [normAux_congr (rest.length + 1) rest.length rest (by omega) (by omega)]
  rfl

theorem norm_merge3 {a b c : String} {rest2 : List String}
    (h2 : (dayMonB a.data && yearB b.data) = false)
    (h3 : (shortDayB a.data && shortMonB b.data && yearB c.data) = true) :
    normalize_multiline_dates (a :: b :: c :: rest2) =
      (a ++ " " ++ b ++ " " ++ c) :: normalize_multiline_dates rest2 := by
  show normAux (a :: b :: c :: rest2).length _ = _
  simp only [List.length_cons, normAux, h2, h3, Bool.false_eq_true, if_false, if_true]
  rw [normAux_congr (rest2.length + 1 + 1) rest2.length rest2 (by omega) (by omega)]
  rfl

theorem norm_nomerge {a b : String} {rest : List String}
    (h2 : (dayMonB a.data && yearB b.data) = false)
    (h3 : ∀ c rest2, rest = c :: rest2 →
      (shortDayB a.data && shortMonB b.data && yearB c.data) = false) :
    normalize_multiline_dates (a :: b :: rest) =
      a :: normalize_multiline_dates (b :: rest) := by
  cases rest with
  | nil =>
    show normAux (a :: b :: []).length _ = _
    simp only [List.length_cons, List.length_nil, normAux, h2, Bool.false_eq_true, if_false]
    rfl
  | cons c rest2 =>
    show normAux (a :: b :: c :: rest2).length _ =
      a :: normAux (b :: c :: rest2).length (b :: c :: rest2)
    simp only [List.length_cons, normAux, h2, h3 c rest2 rfl, Bool.false_eq_true, if_false]

/-- First-step analysis of the normalizer: the head of the output for a
non-empty input is either the unchanged first input line or a merged line
matching no date pattern. -/
theorem norm_head_cases (x : String) (xs : List String) :
    normalize_multiline_dates (x :: xs) = x :: normalize_multiline_dates xs ∨
    ∃ hd tl, normalize_multiline_dates (x :: xs) = hd :: tl ∧ noPatB hd := by
  cases xs with
  | nil => left; rfl
  | cons b rest =>
    cases hc2 : dayMonB x.data && yearB b.data with
    | true =>
      right
      refine ⟨_, _, norm_merge2 hc2, merged2_noPat ?_⟩
      exact (Bool.and_eq_true _ _ |>.mp hc2).2
    | false =>
      cases rest with
      | nil => left; exact norm_nomerge hc2 (by intro c r2 h; cases h)
      | cons c rest2 =>
        cases hc3 : shortDayB x.data && shortMonB b.data && yearB c.data with
        | true =>
          right
          refine ⟨_, _, norm_merge3 hc2 hc3, merged3_noPat ?_⟩
          exact (Bool.and_eq_true _ _ |>.mp hc3).2
        | false =>
          left
          exact norm_nomerge hc2 (by intro c' r2' h; cases h; exact hc3)

theorem norm_cons_nomerge (x : String) (xs : List String)
    (H2 : ∀ b tl, xs = b :: tl → (dayMonB x.data && yearB b.data) = false)
    (H3 : ∀ b c tl, xs = b :: c :: tl →
      (shortDayB x.data && shortMonB b.data && yearB c.data) = false) :
    normalize_multiline_dates (x :: xs) = x :: normalize_multiline_dates xs := by
  cases xs with
  | nil => rfl
  | cons b rest =>
    exact norm_nomerge (H2 b rest rfl) (fun c r2 h => H3 b c r2 (by rw [h]))

theorem norm_idem_aux : ∀ f : Nat, ∀ L : List String, L.length ≤ f →
    normalize_multiline_dates (normalize_multiline_dates L) = normalize_multiline_dates L := by
  intro f
  induction f with
  | zero =>
    intro L hL
    have : L = [] := List.eq_nil_of_length_eq_zero (Nat.le_zero.mp hL)
    subst this
    rfl
  | succ f ih =>
    intro L hL
    match L with
    | [] => rfl
    | [a] => rfl
    | a :: b :: rest =>
      simp only [List.length_cons] at hL
      cases hc2 : dayMonB a.data && yearB b.data with
      | true =>
        rw [norm_merge2 hc2]
        have hM := merged2_noPat (a := a) (Bool.and_eq_true _ _ |>.mp hc2).2
        rw [norm_cons_nomerge _ _
          (fun b' tl _ => by rw [hM.1, Bool.false_and])
          (fun b' c' tl _ => by rw [hM.2.2.1, Bool.false_and, Bool.false_and])]
        rw [ih rest (by omega)]
      | false =>
        cases rest with
        | nil =>
          rw [norm_nomerge hc2 (by intro c r2 h; cases h), norm_single,
            norm_nomerge hc2 (by intro c r2 h; cases h), norm_single]
        | cons c rest2 =>
          simp only [List.length_cons] at hL
          cases hc3 : shortDayB a.data && shortMonB b.data && yearB c.data with
          | true =>
            rw [norm_merge3 hc2 hc3]
            have hM := merged3_noPat (a := a) (b := b) (Bool.and_eq_true _ _ |>.mp hc3).2
            rw [norm_cons_nomerge _ _
              (fun b' tl _ => by rw [hM.1, Bool.false_and])
              (fun b' c' tl _ => by rw [hM.2.2.1, Bool.false_and, Bool.false_and])]
            rw [ih rest2 (by omega)]
          | false =>
            rw [norm_nomerge hc2 (by intro c' r2' h; cases h; exact hc3)]
            have hN : normalize_multiline_dates (normalize_multiline_dates (b :: c :: rest2)) =
                normalize_multiline_dates (b :: c :: rest2) :=
              ih (b :: c :: rest2) (by simp; omega)
            rw [norm_cons_nomerge a (normalize_multiline_dates (b :: c :: rest2)) ?H2 ?H3, hN]
            case H2 =>
              intro b' tl hNeq
              rcases norm_head_cases b (c :: rest2) with hL1 | ⟨hd, tl2, heq, hnp⟩
              · rw [hL1] at hNeq
                injection hNeq with hb' _
                subst hb'
                exact hc2
              · rw [heq] at hNeq
                injection hNeq with hb' _
                subst hb'
                rw [hnp.2.1, Bool.and_false]
            case H3 =>
              intro b' c' tl hNeq
              rcases norm_head_cases b (c :: rest2) with hL1 | ⟨hd, tl2, heq, hnp⟩
              · rw [hL1] at hNeq
                injection hNeq with hb' htl
                subst hb'
                cases hsd : (shortDayB a.data && shortMonB b.data) with
                | false => rw [Bool.false_and]
                | true =>
                  rw [Bool.true_and]
                  have hyc : yearB c.data = false := by
                    rw [hsd, Bool.true_and] at hc3
                    exact hc3
                  rcases norm_head_cases c rest2 with hL2 | ⟨hd2, tl3, heq2, hnp2⟩
                  · rw [hL2] at htl
                    injection htl with hc' _
                    subst hc'
                    exact hyc
                  · rw [heq2] at htl
                    injection htl with hc' _
                    subst hc'
                    exact hnp2.2.1
              · rw [heq] at hNeq
                injection hNeq with hb' _
                subst hb'
                rw [hnp.2.2.2, Bool.and_false, Bool.false_and]

/-- C7: `LineNormalizer` (`_normalize_multiline_dates`) is idempotent:
for every sequence of lines `L`, `normalize (normalize L) = normalize L`. -/
theorem c7_normalize_multiline_dates_idempotent (L : List String) :
    normalize_multiline_dates (normalize_multiline_dates L) = normalize_multiline_dates L :=
  norm_idem_aux L.length L (Nat.le_refl _)

/-- C3: `AmountToken` (`_parse_amount`) returns, for every input string,
the value given by the spec's rule sequence (uppercase; strip `CR`/`DR`;
strip thousands separators; normalize non-breaking space; negate a
parenthesized value; strip characters outside `[0-9.-]`; return `0.0` for
empty, `"-"` or `"."`; otherwise parse as a decimal), and it is a total
function, so it never raises; in particular
`AmountToken "1,234.50CR" = 1234.50`, `AmountToken "(500.00)" = -500.00`
and `AmountToken "" = 0.0`. -/
theorem c3_parse_amount_follows_spec_rules :
    (∀ s : String, parse_amount s = amountToken_spec s) ∧
    parse_amount "1,234.50CR" = 1234.5 ∧
    parse_amount "(500.00)" = -500 ∧
    parse_amount "" = 0 := by
  refine ⟨fun _ => rfl, ?_, by decide, by decide⟩
  have h : parse_amount "1,234.50CR" = Rat.divInt 123450 100 := by decide
  rw [h]
  norm_num [Rat.divInt]

/-! ### Data model (spec §3) -/

/-- `StatementMetadata`: the `meta` mapping built by the parsers. -/
structure Meta where
  account_name : String
  account_number : String
  period : String
  opening_balance : ℚ
  bank : String
  layout : String
deriving Repr, DecidableEq, Inhabited

/-- `TransactionRecord`: one entry of the `transactions` array. -/
structure Txn where
  date : String
  value_date : String
  description : String
  description_line1 : String
  description_line2 : String
  cheque_ref : String
  debit : ℚ
  credit : ℚ
  balance : ℚ
  orig_debit_text : String
  orig_credit_text : String
  orig_balance_text : String
deriving Repr, DecidableEq, Inhabited

/-- `ParsedStatement`: the artifact exchanged between parser and renderer. -/
structure ParsedStatement where
  meta : Meta
  transactions : List Txn
deriving Repr, DecidableEq, Inhabited

/-! ### Amount-token matchers

Deterministic embeddings of the two amount regexes of the source, with
the backtracking behaviour of Python `re` made explicit. -/

/-- Optional `(?:CR|DR)` suffix length. -/
def crdrLen (cs : List Char) : Nat :=
  if "CR".data.isPrefixOf cs || "DR".data.isPrefixOf cs then 2 else 0

/-- Match `\.\d{2}(?:CR|DR)?` at the head, returning the consumed length. -/
def matchDotCents (cs : List Char) : Option Nat :=
  match cs with
  | '.' :: a :: b :: r => if isDig a && isDig b then some (3 + crdrLen r) else none
  | _ => none

/-- Match `(?:,\d{3})*\.\d{2}(?:CR|DR)?` at the head with greedy groups and
backtracking: prefer one more comma group, fall back to the cents part. -/
def matchGroupsThenDot : Nat → List Char → Option Nat
  | 0, cs => matchDotCents cs
  | f + 1, cs =>
    (match cs with
     | ',' :: a :: b :: c :: r =>
       if isDig a && isDig b && isDig c then (matchGroupsThenDot f r).map (· + 4) else none
     | _ => none) <|> matchDotCents cs

/-- One greedy alternative of `\d{1,3}`: exactly `k` digits then the rest
of the strict amount pattern. -/
def tryDigitsThen (k : Nat) (cs : List Char) : Option Nat :=
  let ds := cs.take k
  if decide (ds.length = k) && ds.all isDig then
    (matchGroupsThenDot cs.length (cs.drop k)).map (· + k)
  else none

/-- Match the strict amount regex `\d{1,3}(?:,\d{3})*\.\d{2}(?:CR|DR)?`
(utils.py lines 86, 130, 200) at the head of `cs`. -/
def matchAmtStrictAt (cs : List Char) : Option Nat :=
  tryDigitsThen 3 cs <|> tryDigitsThen 2 cs <|> tryDigitsThen 1 cs

/-- Optional fraction `(?:\.\d{1,2})?` (greedy) then optional `CR`/`DR`. -/
def looseFrac (cs : List Char) : Nat :=
  match cs with
  | '.' :: a :: b :: r =>
    if isDig a && isDig b then 3 + crdrLen r
    else if isDig a then 2 + crdrLen (b :: r)
    else crdrLen ('.' :: a :: b :: r)
  | ['.', a] => if isDig a then 2 else 0
  | cs' => crdrLen cs'

/-- Greedy `(?:,\d{3})*` followed by `looseFrac`; the continuation is all
optional, so the greedy scan never backtracks. -/
def looseGroups : Nat → List Char → Nat
  | 0, cs => looseFrac cs
  | f + 1, cs =>
    match cs with
    | ',' :: a :: b :: c :: r =>
      if isDig a && isDig b && isDig c then 4 + looseGroups f r else looseFrac cs
    | _ => looseFrac cs

/-- Match the loose amount regex
`\d{1,3}(?:,\d{3})*(?:\.\d{1,2})?(?:CR|DR)?|\d+(?:\.\d{1,2})?(?:CR|DR)?`
(utils.py line 255) at the head of `cs`; the first alternative succeeds
whenever a digit is present, so the second is reachable never. -/
def matchAmtLooseAt (cs : List Char) : Option Nat :=
  let alt1 : Option Nat :=
    if decide ((cs.take 3).length = 3) && (cs.take 3).all isDig then
      some (3 + looseGroups cs.length (cs.drop 3))
    else if decide ((cs.take 2).length = 2) && (cs.take 2).all isDig then
      some (2 + looseGroups cs.length (cs.drop 2))
    else if decide ((cs.take 1).length = 1) && (cs.take 1).all isDig then
      some (1 + looseGroups cs.length (cs.drop 1))
    else none
  let alt2 : Option Nat :=
    let run := cs.takeWhile isDig
    if !run.isEmpty then some (run.length + looseFrac (cs.drop run.length)) else none
  alt1 <|> alt2

/-- One regex match with its token text and span. -/
structure AmtMatch where
  tok : List Char
  start : Nat
  stop : Nat
deriving Repr, DecidableEq, Inhabited

/-- `re.finditer` over the text: non-overlapping matches found scanning
left to right, advancing one character after a failed position. -/
def findAmtsAux (matchAt : List Char → Option Nat) : Nat → List Char → Nat → List AmtMatch
  | 0, _, _ => []
  | _ + 1, [], _ => []
  | f + 1, c :: t, pos =>
    match matchAt (c :: t) with
    | some len =>
      ⟨(c :: t).take len, pos, pos + len⟩ :: findAmtsAux matchAt f (t.drop (len - 1)) (pos + len)
    | none => findAmtsAux matchAt f t (pos + 1)

/-- All matches of an amount matcher in `cs`, with positions. -/
def findAmts (matchAt : List Char → Option Nat) (cs : List Char) : List AmtMatch :=
  findAmtsAux matchAt cs.length cs 0

/-! ### Metadata extraction (utils.py lines 76-88 and 191-202) -/

/-- Python `line.startswith(tuple)`. -/
def startsWithAny (l : String) (pats : List String) : Bool :=
  pats.any (fun p => p.data.isPrefixOf l.data)

/-- The four metadata fields populated by the scan (bank and layout are
attached by each parser afterwards). -/
structure MetaCore where
  account_name : String
  account_number : String
  period : String
  opening_balance : ℚ
deriving Repr, DecidableEq, Inhabited

/-- Processing of one line of the metadata scan; every matching rule
overwrites its field, so the last matching line wins. -/
def extractMetaStep (m : MetaCore) (line : String) : MetaCore :=
  let m1 := if startsWithAny line ["Mrs.", "Mr.", "M/s", "Ms."] then
      {m with account_name := line} else m
  let m2 := if hasSub line.data "Account No".data then
      {m1 with account_number := ⟨stripL (afterLastSub line.data "Account No".data)⟩} else m1
  let m3 := if hasSub line.data "Statement From".data then
      {m2 with period :=
        ⟨stripL ((afterLastSub line.data "Statement From".data).filter (fun c => c ≠ ':'))⟩}
    else m2
  if startsWithAny ⟨line.data.map upChar⟩ ["BROUGHT FORWARD", "BALANCE B/F"] then
    match (findAmts matchAmtStrictAt line.data).getLast? with
    | some am => {m3 with opening_balance := parse_amount ⟨am.tok⟩}
    | none => m3
  else m3

/-- The single pass of the metadata scan over the normalized lines. -/
def extractMeta (lines : List String) : MetaCore :=
  lines.foldl extractMetaStep ⟨"", "", "", 0⟩

/-! ### Layout classification (utils.py lines 12-15 and 405-421) -/

def SBI_POST_VALUE : String := "SBI_POST_VALUE"

def SBI_TXN_VALUE : String := "SBI_TXN_VALUE"

def SBI_DATE_DETAILS : String := "SBI_DATE_DETAILS"

/-- The upcased join of the first 120 normalized lines
(`" ".join(lines[:120]).upper()`). -/
def layoutSample (lines : List String) : List Char :=
  (joinWith [' '] ((lines.take 120).map String.data)).map upChar

/-- Auto-detection of the layout from header keywords, first match wins
(utils.py lines 413-419). -/
def autoDetect (lines : List String) : Option String :=
  let s := layoutSample lines
  if hasSub s "POST DATE".data && hasSub s "VALUE DATE".data && hasSub s "DESCRIPTION".data then
    some SBI_POST_VALUE
  else if hasSub s "TXN DATE".data && hasSub s "VALUE DATE".data then
    some SBI_TXN_VALUE
  else if hasSub s "TXN DATE".data && hasSub s "DETAILS".data then
    some SBI_DATE_DETAILS
  else none

/-- The layout actually used:
`(layout.strip().upper() if layout else None) or auto or SBI_POST_VALUE`
(utils.py line 421), with Python's falsy empty string modelled explicitly. -/
def resolveLayout (layout : Option String) (lines : List String) : String :=
  let auto := autoDetect lines
  let hinted : Option String :=
    match layout with
    | none => none
    | some l => if l = "" then none else some ⟨(stripL l.data).map upChar⟩
  let v1 : Option String :=
    match hinted with
    | some h => if h = "" then auto else some h
    | none => auto
  match v1 with
  | some s => if s = "" then SBI_POST_VALUE else s
  | none => SBI_POST_VALUE

/-! ### Date-anchor matchers -/

/-- Separator class of the date patterns: dash or slash. -/
def isSep (c : Char) : Bool := c = '-' || c = '/'

/-- Match `\d{2} sep \d{2} sep \d{4}` (sep meaning dash or slash) at the head of `cs`. -/
def numFrag22 (cs : List Char) : Option Nat :=
  match cs with
  | d1 :: d2 :: s1 :: d3 :: d4 :: s2 :: y1 :: y2 :: y3 :: y4 :: _ =>
    if isDig d1 && isDig d2 && isSep s1 && isDig d3 && isDig d4 && isSep s2 &&
        isDig y1 && isDig y2 && isDig y3 && isDig y4 then some 10 else none
  | _ => none

/-- Match `\d{1,2} sep \d{1,2} sep \d{4}` (sep meaning dash or slash) at the head of `cs`. -/
def numFrag12 (cs : List Char) : Option Nat :=
  let d1 := cs.takeWhile isDig
  if d1.isEmpty || decide (2 < d1.length) then none
  else
    let r1 := cs.drop d1.length
    match r1 with
    | s1 :: r2 =>
      if isSep s1 then
        let d2 := r2.takeWhile isDig
        if d2.isEmpty || decide (2 < d2.length) then none
        else
          let r3 := r2.drop d2.length
          match r3 with
          | s2 :: r4 =>
            if isSep s2 then
              let yr := r4.take 4
              if decide (yr.length = 4) && yr.all isDig then
                some (d1.length + 1 + d2.length + 1 + 4)
              else none
            else none
          | [] => none
      else none
    | [] => none

/-- Match `\d{1,2}\s+[A-Za-z]{3}\s+\d{4}` at the head of `cs`. -/
def dMonFrag (cs : List Char) : Option Nat :=
  let ds := cs.takeWhile isDig
  if ds.isEmpty || decide (2 < ds.length) then none
  else
    let r1 := cs.drop ds.length
    let ws1 := r1.takeWhile isSpaceChar
    if ws1.isEmpty then none
    else
      let r2 := r1.drop ws1.length
      let letters := r2.take 3
      if decide (letters.length = 3) && letters.all isAsciiAlpha then
        let r3 := r2.drop 3
        let ws2 := r3.takeWhile isSpaceChar
        if ws2.isEmpty then none
        else
          let r4 := r3.drop ws2.length
          let yr := r4.take 4
          if decide (yr.length = 4) && yr.all isDig then
            some (ds.length + ws1.length + 3 + ws2.length + 4)
          else none
      else none

/-- One date alternative of `date_line_pattern` (utils.py lines 93-96):
`\d{2} sep \d{2} sep \d{4}` (sep meaning dash or slash) first, then `\d{1,2}\s+[A-Za-z]{3}\s+\d{4}`. -/
def postDateFrag (cs : List Char) : Option Nat := numFrag22 cs <|> dMonFrag cs

/-- Match of the PostValue anchor `^(date)\s+(date)` against a line,
returning group 1, group 2 and the raw text after the match end. -/
def matchTwoDatesPost (line : String) : Option (String × String × String) :=
  let cs := line.data
  match postDateFrag cs with
  | none => none
  | some l1 =>
    let r1 := cs.drop l1
    let ws := r1.takeWhile isSpaceChar
    if ws.isEmpty then none
    else
      let r2 := r1.drop ws.length
      match postDateFrag r2 with
      | none => none
      | some l2 => some (⟨cs.take l1⟩, ⟨r2.take l2⟩, ⟨r2.drop l2⟩)

/-! ### PostValue segmentation and classification (utils.py lines 90-184) -/

/-- A raw PostValue transaction block: the two anchor dates and the
content lines collected until the next anchor. -/
structure PostRawBlock where
  date : String
  value_date : String
  lines : List String
deriving Repr, DecidableEq, Inhabited

/-- The PostValue segmentation loop (utils.py lines 98-127): state machine
over lines with `header_seen` / `in_table` flags, the currently open
block and the accumulated closed blocks. -/
def postSegLoop : List String → Bool → Bool → Option PostRawBlock → List PostRawBlock →
    List PostRawBlock
  | [], _, _, curr, acc => acc ++ curr.toList
  | l :: rest, header_seen, in_table, curr, acc =>
    let u : List Char := l.data.map upChar
    if hasSub u "POST DATE".data && hasSub u "VALUE DATE".data && hasSub u "DESCRIPTION".data then
      postSegLoop rest true in_table curr acc
    else if header_seen &&
        (hasSub u "DEBIT".data && hasSub u "CREDIT".data && hasSub u "BALANCE".data) then
      postSegLoop rest header_seen true curr acc
    else if !in_table then
      postSegLoop rest header_seen in_table curr acc
    else
      match matchTwoDatesPost l with
      | some (d1, d2, tail0) =>
        let tail : String := ⟨stripL tail0.data⟩
        postSegLoop rest header_seen in_table
          (some ⟨d1, d2, if tail = "" then [] else [tail]⟩) (acc ++ curr.toList)
      | none =>
        if "page".data.isPrefixOf (l.data.map lowChar) then
          postSegLoop rest header_seen in_table curr acc
        else
          match curr with
          | some c =>
            postSegLoop rest header_seen in_table (some {c with lines := c.lines ++ [l]}) acc
          | none => postSegLoop rest header_seen in_table curr acc

/-- The debit/credit assignment of the PostValue classifier (utils.py
lines 161-165): the movement token goes to the debit on a debit keyword,
else to the credit. -/
def classifyMovementPost (is_debit : Bool) (amt_tok : List Char) : ℚ × ℚ :=
  if is_debit then (parse_amount ⟨amt_tok⟩, 0) else (0, parse_amount ⟨amt_tok⟩)

/-- The intermediate values of the PostValue classifier for one block
with at least one amount token. -/
structure PostParts where
  desc_line1 : List Char
  desc_line2 : List Char
  is_debit : Bool
  amt_tok : List Char
  balance_tok : List Char
  balance : ℚ
deriving Repr, DecidableEq, Inhabited

/-- The description/amount analysis of one PostValue block (utils.py
lines 132-161): `none` when the merged text carries no amount token. -/
def classifyPostParts (b : PostRawBlock) : Option PostParts :=
  let merged := collapseStrip (joinWith [' '] (b.lines.map String.data))
  let amounts := findAmts matchAmtStrictAt merged
  match amounts.getLast? with
  | none => none
  | some lastAm =>
    let balance_tok := lastAm.tok
    let balance := parse_amount ⟨balance_tok⟩
    let amtM := if 2 ≤ amounts.length then amounts.getD (amounts.length - 2) default
      else amounts.getD 0 default
    let amt_tok := amtM.tok
    let a_start := amtM.start
    let desc := stripL (merged.take a_start)
    let parts := ((splitOnPred
        (fun c => c = '|' || c = '\uFFFE' || c = '\uFFFD' || c = '/') desc).map stripL).filter
      (fun p => !p.isEmpty)
    let dlines : List Char × List Char :=
      match parts with
      | p0 :: prest => (p0, if prest.isEmpty then [] else joinWith [' '] prest)
      | [] =>
        match splitOnce desc with
        | [] => ([], [])
        | [w] => (w, [])
        | w :: r :: _ => (w, r)
    let desc_line1 := dlines.1
    let desc_line2 := dlines.2
    let desc_upper := (desc_line1 ++ ' ' :: desc_line2).map upChar
    let is_debit := ["WDL", "UPI/DR", "IMPS/DR", "ATM WDL", "POS/", "/DR/"].any
      (fun k => hasSub desc_upper k.data)
    some { desc_line1 := desc_line1, desc_line2 := desc_line2, is_debit := is_debit,
           amt_tok := amt_tok, balance_tok := balance_tok, balance := balance }

/-- Classification of one PostValue block (utils.py lines 132-180):
last amount token is the balance, second-to-last (or only) amount token
is the movement, the text before the movement token is the description,
debit when a debit keyword occurs in it, credit otherwise. -/
def classifyPostBlock (b : PostRawBlock) : Txn :=
  match classifyPostParts b with
  | none =>
    { date := b.date, value_date := b.value_date, description := "", description_line1 := "",
      description_line2 := "", cheque_ref := "", debit := 0, credit := 0, balance := 0,
      orig_debit_text := "", orig_credit_text := "", orig_balance_text := "" }
  | some p =>
    let mov := classifyMovementPost p.is_debit p.amt_tok
    { date := b.date, value_date := b.value_date,
      description := ⟨stripL (p.desc_line1 ++ (if p.desc_line2.isEmpty then [] else '\n' :: p.desc_line2))⟩,
      description_line1 := ⟨p.desc_line1⟩, description_line2 := ⟨p.desc_line2⟩,
      cheque_ref := "", debit := mov.1, credit := mov.2, balance := p.balance,
      orig_debit_text := "", orig_credit_text := "", orig_balance_text := ⟨p.balance_tok⟩ }

/-- Embedding of `_parse_sbi_post_value` (utils.py lines 72-184), taking
the extracted text lines of the document. -/
def parse_sbi_post_value (lines : List String) : ParsedStatement :=
  let nl := normalize_multiline_dates lines
  let m := extractMeta nl
  let blocks := postSegLoop nl false false none []
  let meta0 : Meta := { account_name := m.account_name, account_number := m.account_number,
                        period := m.period, opening_balance := m.opening_balance,
                        bank := "SBI", layout := SBI_POST_VALUE }
  { meta := meta0, transactions := blocks.map classifyPostBlock }

/-- C9 counterexample: on the spec's own PostValue example, the single
transaction's balance is not `4500.00`: the balance token matched by the
strict amount regex inside `"4500.00"` is `"500.00"`, because the regex
`\d{1,3}(?:,\d{3})*\.\d{2}` only accepts thousands written with comma
separators. -/
theorem c9_counterexample :
    (parse_sbi_post_value ["POST DATE VALUE DATE DESCRIPTION", "DEBIT CREDIT BALANCE",
      "01-04-2024 02-04-2024 ATM WDL 500.00 4500.00"]).transactions.length = 1 ∧
    ((parse_sbi_post_value ["POST DATE VALUE DATE DESCRIPTION", "DEBIT CREDIT BALANCE",
      "01-04-2024 02-04-2024 ATM WDL 500.00 4500.00"]).transactions.getD 0 default).balance ≠
      4500 := by
  decide

/-- C9 amended: after the header and table-start lines, the anchored line
`"01-04-2024 02-04-2024 ATM WDL 500.00 4500.00"` yields exactly one
transaction with `date = "01-04-2024"`, `value_date = "02-04-2024"`,
`debit = 500.00`, `credit = 0.0` and `balance = 500.00` (the matched
balance token being `"500.00"`, since `4500.00` carries no thousands
separator). -/
theorem c9_post_value_anchored_line :
    (parse_sbi_post_value ["POST DATE VALUE DATE DESCRIPTION", "DEBIT CREDIT BALANCE",
      "01-04-2024 02-04-2024 ATM WDL 500.00 4500.00"]).transactions =
    [{ date := "01-04-2024", value_date := "02-04-2024", description := "ATM WDL",
       description_line1 := "ATM WDL", description_line2 := "", cheque_ref := "",
       debit := 500, credit := 0, balance := 500, orig_debit_text := "",
       orig_credit_text := "", orig_balance_text := "500.00" }] := by
  decide

/-- C10: in the PostValue segmentation loop, once inside the table and
before any anchor line has opened a block (`curr = none`), every line
that does not match the two-date anchor is dropped without a trace: the
segmentation of `junk ++ rest` equals the segmentation of `rest`. -/
theorem c10_post_value_pre_anchor_junk_discarded (junk rest : List String)
    (acc : List PostRawBlock) (h : ∀ l ∈ junk, matchTwoDatesPost l = none) :
    postSegLoop (junk ++ rest) true true none acc = postSegLoop rest true true none acc := by
  induction junk with
  | nil => rfl
  | cons l t ih =>
    have hl : matchTwoDatesPost l = none := h l (by simp)
    have ht : ∀ x ∈ t, matchTwoDatesPost x = none := fun x hx => h x (by simp [hx])
    simp only [List.cons_append, postSegLoop, hl, Bool.not_true, Bool.false_eq_true, if_false]
    split
    · exact ih ht
    · split
      · exact ih ht
      · split
        · exact ih ht
        · exact ih ht

/-- Witness for C10 at a concrete junk line and table. -/
theorem c10_post_value_pre_anchor_junk_discarded_witness :
    postSegLoop (["OPENING JUNK CONTENT"] ++
      ["01-04-2024 02-04-2024 ATM WDL 500.00 4,500.00"]) true true none [] =
    postSegLoop ["01-04-2024 02-04-2024 ATM WDL 500.00 4,500.00"] true true none [] :=
  c10_post_value_pre_anchor_junk_discarded ["OPENING JUNK CONTENT"]
    ["01-04-2024 02-04-2024 ATM WDL 500.00 4,500.00"] []
    (by intro l hl; simp at hl; subst hl; decide)

/-! ### TxnValue segmentation (utils.py lines 204-252) -/

/-- One date alternative of the TxnValue `date_frag`
(utils.py line 204): `\d{1,2}\s+[A-Za-z]{3}\s+\d{4}` first, then
`\d{1,2} sep \d{1,2} sep \d{4}`. -/
def txnDateFrag (cs : List Char) : Option Nat := dMonFrag cs <|> numFrag12 cs

/-- Match of `row_start` (utils.py line 205):
`^\s*(?P<d1>frag)\s+(?P<d2>frag)\s*(?P<rest>.*)$`, returning the
stripped groups `d1`, `d2` and `rest`. -/
def rowStartMatch (line : String) : Option (String × String × String) :=
  let cs0 := line.data
  let cs := cs0.drop (cs0.takeWhile isSpaceChar).length
  match txnDateFrag cs with
  | none => none
  | some l1 =>
    let r1 := cs.drop l1
    let ws := r1.takeWhile isSpaceChar
    if ws.isEmpty then none
    else
      let r2 := r1.drop ws.length
      match txnDateFrag r2 with
      | none => none
      | some l2 =>
        let r3 := r2.drop l2
        let rest := r3.drop (r3.takeWhile isSpaceChar).length
        some (⟨stripL (cs.take l1)⟩, ⟨stripL (r2.take l2)⟩, ⟨stripL rest⟩)

/-- Stop sentinel of the primary TxnValue segmentation (utils.py line 222). -/
def txnStopSentinel (l : String) : Bool :=
  let up : List Char := l.data.map upChar
  "PAGE NO".data.isPrefixOf up || hasSub up "CLOSING BALANCE".data ||
    hasSub up "SUMMARY".data || "TOTAL".data.isPrefixOf up

/-- A raw TxnValue transaction block. -/
structure TxnRawBlock where
  date : String
  value_date : String
  text : String
deriving Repr, DecidableEq, Inhabited

/-- The primary TxnValue segmentation (utils.py lines 207-229): a line
matching `row_start` opens a block; following lines are merged into it
until the next `row_start` line or a stop sentinel. -/
def txnSegAux : Nat → List String → List TxnRawBlock
  | 0, _ => []
  | _ + 1, [] => []
  | f + 1, l :: rest =>
    match rowStartMatch l with
    | some (d1, d2, r0) =>
      let cont := rest.takeWhile (fun x => (rowStartMatch x).isNone && !txnStopSentinel x)
      let remaining := rest.drop cont.length
      let text : String := ⟨stripL (joinWith [' '] (r0.data :: cont.map String.data))⟩
      ⟨d1, d2, text⟩ :: txnSegAux f remaining
    | none => txnSegAux f rest

/-- Match of the permissive fallback pattern `^\s*frag\b`
(utils.py line 232). -/
def permStartMatch (line : String) : Bool :=
  let cs0 := line.data
  let cs := cs0.drop (cs0.takeWhile isSpaceChar).length
  match txnDateFrag cs with
  | none => false
  | some l1 =>
    match (cs.drop l1).head? with
    | none => true
    | some c => !isWordChar c

/-- Stop sentinel of the fallback segmentation (utils.py line 245):
no `TOTAL` rule here. -/
def permStopSentinel (l : String) : Bool :=
  let up : List Char := l.data.map upChar
  "PAGE NO".data.isPrefixOf up || hasSub up "CLOSING BALANCE".data || hasSub up "SUMMARY".data

/-- The permissive fallback segmentation (utils.py lines 231-252), used
only when the primary strategy yields no block: the first two
whitespace tokens of a fallback start line are the dates. -/
def txnFallbackAux : Nat → List String → List TxnRawBlock
  | 0, _ => []
  | _ + 1, [] => []
  | f + 1, l :: rest =>
    if permStartMatch l then
      let toks := wsTokens l.data
      if 2 ≤ toks.length then
        let d1 : String := ⟨toks.getD 0 []⟩
        let d2 : String := ⟨toks.getD 1 []⟩
        let r0 : List Char := if 2 < toks.length then joinWith [' '] (toks.drop 2) else []
        let cont := rest.takeWhile (fun x => !permStartMatch x && !permStopSentinel x)
        let remaining := rest.drop cont.length
        let text : String := ⟨stripL (joinWith [' '] (r0 :: cont.map String.data))⟩
        ⟨d1, d2, text⟩ :: txnFallbackAux f remaining
      else txnFallbackAux f rest
    else txnFallbackAux f rest

/-! ### TxnValue pre-normalization (utils.py lines 262-270) -/

/-- `re.sub`-style scanner: at each position try a pattern; on a match
replace it and continue after it, otherwise keep one character. -/
def scanSub (tryAt : List Char → Option (Nat × List Char)) : Nat → List Char → List Char
  | 0, cs => cs
  | _ + 1, [] => []
  | f + 1, c :: t =>
    match tryAt (c :: t) with
    | some (len, repl) => repl ++ scanSub tryAt f (t.drop (len - 1))
    | none => c :: scanSub tryAt f t

/-- `(?i)(UPI\s*DR|UPIDR)` at the head, replaced by `UPI/DR`. -/
def tryUPIDR (cs : List Char) : Option (Nat × List Char) :=
  if ciPrefix "UPI" cs then
    let t := cs.drop 3
    let w := t.takeWhile isSpaceChar
    if ciPrefix "DR" (t.drop w.length) then some (3 + w.length + 2, "UPI/DR".data) else none
  else none

/-- `(?i)(UPI\s*CR|UPICR)` at the head, replaced by `UPI/CR`. -/
def tryUPICR (cs : List Char) : Option (Nat × List Char) :=
  if ciPrefix "UPI" cs then
    let t := cs.drop 3
    let w := t.takeWhile isSpaceChar
    if ciPrefix "CR" (t.drop w.length) then some (3 + w.length + 2, "UPI/CR".data) else none
  else none

/-- Optional dash then `TRANSFER`, case-insensitively, with the
backtracking of `-?TRANSFER`. -/
def tryDashTransfer (t : List Char) : Option Nat :=
  match t with
  | '-' :: r => if ciPrefix "TRANSFER" r then some 9 else none
  | _ => if ciPrefix "TRANSFER" t then some 8 else none

/-- `(?i)Paym(?:e)?-?TRANSFER` at the head, replaced by `Payme TRANSFER`. -/
def tryPaym (cs : List Char) : Option (Nat × List Char) :=
  if ciPrefix "PAYM" cs then
    let t := cs.drop 4
    let withE : Option Nat :=
      if ciPrefix "E" t then (tryDashTransfer (t.drop 1)).map (· + 1) else none
    match withE <|> tryDashTransfer t with
    | some n => some (4 + n, "Payme TRANSFER".data)
    | none => none
  else none

/-- `(?i)(TRANSFER)(?=UPI/)` at the head, replaced by the matched text
plus a space; the lookahead is not consumed. -/
def tryTransferUPI (cs : List Char) : Option (Nat × List Char) :=
  if ciPrefix "TRANSFER" cs && ciPrefix "UPI/" (cs.drop 8) then
    some (8, cs.take 8 ++ [' '])
  else none

/-- `\s*/\s*` at the head, replaced by `/`. -/
def trySlashWS (cs : List Char) : Option (Nat × List Char) :=
  let w1 := cs.takeWhile isSpaceChar
  match cs.drop w1.length with
  | '/' :: r => some (w1.length + 1 + (r.takeWhile isSpaceChar).length, ['/'])
  | _ => none

/-- `\s*\|\s*` at the head, replaced by a spaced pipe. -/
def tryPipeWS (cs : List Char) : Option (Nat × List Char) :=
  let w1 := cs.takeWhile isSpaceChar
  match cs.drop w1.length with
  | '|' :: r => some (w1.length + 1 + (r.takeWhile isSpaceChar).length, [' ', '|', ' '])
  | _ => none

/-! ### TxnValue reference extraction (utils.py lines 309-330) -/

/-- Word-boundary test at the head of the remaining text. -/
def boundaryAt (t : List Char) : Bool :=
  match t.head? with
  | none => true
  | some c => !isWordChar c

/-- `(?i)TRANSFER(?:\s+TO|\s+FROM)\b[\s:,-]*([0-9]{4,})` at the head,
returning the captured digits; the boundary before `TRANSFER` is the
caller's duty. -/
def matchRefAt (cs : List Char) : Option (List Char) :=
  if ciPrefix "TRANSFER" cs then
    let t := cs.drop 8
    let w := t.takeWhile isSpaceChar
    if w.isEmpty then none
    else
      let t2 := t.drop w.length
      let afterKW : Option (List Char) :=
        if ciPrefix "TO" t2 && boundaryAt (t2.drop 2) then some (t2.drop 2)
        else if ciPrefix "FROM" t2 && boundaryAt (t2.drop 4) then some (t2.drop 4)
        else none
      match afterKW with
      | none => none
      | some t3 =>
        let sep := t3.takeWhile (fun c => isSpaceChar c || c = ':' || c = ',' || c = '-')
        let ds := (t3.drop sep.length).takeWhile isDig
        if 4 ≤ ds.length then some ds else none
  else none

/-- `re.search` of the reference pattern: first position with a word
boundary where `matchRefAt` succeeds, with the match start. -/
def searchRefAux : Nat → List Char → Nat → Bool → Option (Nat × List Char)
  | 0, _, _, _ => none
  | _ + 1, [], _, _ => none
  | f + 1, c :: t, pos, prevWord =>
    if !prevWord then
      match matchRefAt (c :: t) with
      | some ds => some (pos, ds)
      | none => searchRefAux f t (pos + 1) (isWordChar c)
    else searchRefAux f t (pos + 1) (isWordChar c)

/-- See `searchRefAux`. -/
def searchRef (cs : List Char) : Option (Nat × List Char) :=
  searchRefAux (cs.length + 1) cs 0 false

/-- `(?i)\bTRANSFER\s+(TO|FROM)\b` at the head; `some true` for `TO`. -/
def matchTypAt (cs : List Char) : Option Bool :=
  if ciPrefix "TRANSFER" cs then
    let t := cs.drop 8
    let w := t.takeWhile isSpaceChar
    if w.isEmpty then none
    else
      let t2 := t.drop w.length
      if ciPrefix "TO" t2 && boundaryAt (t2.drop 2) then some true
      else if ciPrefix "FROM" t2 && boundaryAt (t2.drop 4) then some false
      else none
  else none

/-- `re.search` of the `TRANSFER (TO|FROM)` direction pattern. -/
def searchTypAux : Nat → List Char → Bool → Option Bool
  | 0, _, _ => none
  | _ + 1, [], _ => none
  | f + 1, c :: t, prevWord =>
    if !prevWord then
      match matchTypAt (c :: t) with
      | some b => some b
      | none => searchTypAux f t (isWordChar c)
    else searchTypAux f t (isWordChar c)

/-- See `searchTypAux`. -/
def searchTyp (cs : List Char) : Option Bool := searchTypAux (cs.length + 1) cs false

/-- First position at which a run of six or more digits starts, with the
end of the (greedy, maximal) run and the run itself. -/
def findDigitsRun6 : Nat → List Char → Nat → Option (Nat × List Char)
  | 0, _, _ => none
  | _ + 1, [], _ => none
  | f + 1, c :: t, pos =>
    let run := (c :: t).takeWhile isDig
    if 6 ≤ run.length then some (pos + run.length, run)
    else findDigitsRun6 f t (pos + 1)

/-- `re.search((?i)(TRANSFER).*?([0-9]{6,}))`: earliest `TRANSFER`
occurrence followed (lazily) by a six-digit run; returns the match
start, the end of the digit run and the digits. -/
def searchT2Aux : Nat → List Char → Nat → Option (Nat × Nat × List Char)
  | 0, _, _ => none
  | _ + 1, [], _ => none
  | f + 1, c :: t, pos =>
    if ciPrefix "TRANSFER" (c :: t) then
      match findDigitsRun6 (t.length + 1) (t.drop 7) (pos + 8) with
      | some (dEnd, ds) => some (pos, dEnd, ds)
      | none => searchT2Aux f t (pos + 1)
    else searchT2Aux f t (pos + 1)

/-- See `searchT2Aux`. -/
def searchT2 (cs : List Char) : Option (Nat × Nat × List Char) :=
  searchT2Aux (cs.length + 1) cs 0

/-! ### TxnValue description split and classification (utils.py lines 332-378) -/

/-- The two display lines of a TxnValue description (utils.py lines
333-357): three or more slash segments are redistributed in thirds,
otherwise the text is wrapped at a 45-character budget (90 for an
initial overflow pass). -/
def splitDescTxn (desc_main : List Char) : List Char × List Char :=
  if desc_main.isEmpty then ([], [])
  else
    let segs := (splitOnPred (fun c => c = '/') desc_main).filter (fun s => !s.isEmpty)
    if 3 ≤ segs.length then
      let half := max 1 (segs.length / 3)
      let line1 := stripL (joinWith ['/'] (segs.take half))
      let line2 :=
        if half * 2 ≤ segs.length then stripL (joinWith ['/'] ((segs.drop half).take half))
        else stripL (joinWith ['/'] (segs.drop half))
      let restJ :=
        if half * 2 < segs.length then stripL (joinWith ['/'] (segs.drop (half * 2))) else []
      (line1, stripL (line2 ++ (if restJ.isEmpty then [] else '/' :: restJ)))
    else
      if 90 < desc_main.length then
        let first := beforeLastSpace (desc_main.take 45)
        let second := stripL (desc_main.drop first.length)
        let second_first := if 45 < second.length then beforeLastSpace (second.take 45) else second
        (stripL first, stripL second_first)
      else if 45 < desc_main.length then
        let l1 := beforeLastSpace (desc_main.take 45)
        (l1, stripL (desc_main.drop l1.length))
      else (desc_main, [])

/-- The debit/credit decision of the TxnValue classifier (utils.py lines
359-378) on the movement token, the description and the extracted
reference: returns `(debit, credit, orig_debit_text, orig_credit_text)`. -/
def classifyMovementTxn (txn_tok desc_main cheque_ref : List Char) :
    ℚ × ℚ × List Char × List Char :=
  let amt := parse_amount ⟨txn_tok⟩
  let du := desc_main.map upChar
  let is_credit := ["BY TRANSFER", "/CR/", "CR/", "CREDIT", "TRANSFER FROM"].any
    (fun k => hasSub du k.data)
  let is_debit :=
    ["TO TRANSFER", "TRANSFER TO", "/DR/", "DR", "UPI/DR", "DEBIT", "WDL", "ATM WDL"].any
    (fun k => hasSub du k.data)
  if is_credit && !is_debit then (0, amt, [], txn_tok)
  else if is_debit && !is_credit then (amt, 0, txn_tok, [])
  else if !cheque_ref.isEmpty && hasSub cheque_ref "TRANSFER TO".data then (amt, 0, txn_tok, [])
  else if !cheque_ref.isEmpty && hasSub cheque_ref "TRANSFER FROM".data then (0, amt, [], txn_tok)
  else if hasSub du "/CR".data || hasSub du "BY TRANSFER".data then (0, amt, [], txn_tok)
  else (amt, 0, txn_tok, [])

/-- The intermediate values of the TxnValue classifier for one block. -/
structure TxnParts where
  desc_main : List Char
  desc_line1 : List Char
  desc_line2 : List Char
  cheque_ref : List Char
  txn_tok : List Char
  balance_tok : List Char
  balance : ℚ
deriving Repr, DecidableEq, Inhabited

/-- The description/amount analysis of one TxnValue block (utils.py
lines 257-357): pre-normalization, amount location, the single-token
digit-shuffle heuristic, reference extraction and description split. -/
def classifyTxnParts (b : TxnRawBlock) : TxnParts :=
  let merged0 := collapseStrip b.text.data
  let m1 := scanSub tryUPIDR (merged0.length + 1) merged0
  let m2 := scanSub tryUPICR (m1.length + 1) m1
  let m3 := scanSub tryPaym (m2.length + 1) m2
  let m4 := scanSub tryTransferUPI (m3.length + 1) m3
  let m5 := scanSub trySlashWS (m4.length + 1) m4
  let n0 := m5.map (fun c => if c = '\uFFFE' then ' ' else c)
  let n1 := n0.map (fun c => if c = '\uFFFD' then ' ' else c)
  let n2 := replaceSub n1 ['\uFFFE'] [' ', '|', ' ']
  let normalized := scanSub tryPipeWS (n2.length + 1) n2
  let amounts := findAmts matchAmtLooseAt normalized
  let tup : List Char × List Char × List Char × ℚ :=
    match amounts.getLast? with
    | none => (normalized, [], [], 0)
    | some lastAm =>
      let balance_tok := lastAm.tok
      let balance := parse_amount ⟨balance_tok⟩
      let tM := if 2 ≤ amounts.length then amounts.getD (amounts.length - 2) default
        else amounts.getD 0 default
      let txn_tok := tM.tok
      let t_start := tM.start
      let dp0 := stripL (normalized.take t_start)
      let pre := normalized.take t_start
      let rs := rstripL pre
      let shuffled : Option (List Char × List Char) :=
        if !rs.isEmpty && !(rs.any isSpaceChar) then
          let ti := txn_tok.takeWhile isDig
          if rs.all isDig && !rs.isEmpty && !ti.isEmpty then
            if 3 ≤ ti.length && 6 ≤ rs.length then
              match ti with
              | tih :: titl =>
                if !titl.isEmpty then
                  match rfindSub pre rs with
                  | some idx =>
                    some (pre.take idx ++ (rs ++ [tih]) ++ pre.drop (idx + rs.length),
                      titl ++ txn_tok.drop ti.length)
                  | none => none
                else none
              | [] => none
            else none
          else none
        else none
      match shuffled with
      | some (dp, tt) => (dp, tt, balance_tok, balance)
      | none => (dp0, txn_tok, balance_tok, balance)
  let desc_part := tup.1
  let txn_tok := tup.2.1
  let balance_tok := tup.2.2.1
  let balance := tup.2.2.2
  let refRes : List Char × List Char :=
    match searchRef desc_part with
    | some (st, ds) =>
      let cr : List Char :=
        match searchTyp desc_part with
        | some true => "TRANSFER TO ".data ++ ds
        | some false => "TRANSFER FROM ".data ++ ds
        | none => "TRANSFER ".data ++ ds
      (cr, stripL (desc_part.take st))
    | none =>
      match searchT2 desc_part with
      | some (st, dEnd, ds) =>
        let slice := (desc_part.drop st).take (dEnd + 30 - st)
        let su := slice.map upChar
        let cr : List Char :=
          if hasSub su "TO".data then "TRANSFER TO ".data ++ ds
          else if hasSub su "FROM".data then "TRANSFER FROM ".data ++ ds
          else "TRANSFER ".data ++ ds
        (cr, stripL (desc_part.take st))
      | none => ([], desc_part)
  let cheque_ref := refRes.1
  let desc_main := collapseStrip refRes.2
  let dl := splitDescTxn desc_main
  { desc_main := desc_main, desc_line1 := dl.1, desc_line2 := dl.2,
    cheque_ref := cheque_ref, txn_tok := txn_tok, balance_tok := balance_tok,
    balance := balance }

/-- Classification of one TxnValue block (utils.py lines 257-393):
the analysis of `classifyTxnParts` followed by the debit/credit
classification and record assembly (lines 359-393). -/
def classifyTxnBlock (b : TxnRawBlock) : Txn :=
  let p := classifyTxnParts b
  let mov : ℚ × ℚ × List Char × List Char :=
    if !p.txn_tok.isEmpty then classifyMovementTxn p.txn_tok p.desc_main p.cheque_ref
    else (0, 0, [], [])
  { date := b.date, value_date := b.value_date,
    description := ⟨stripL (p.desc_line1 ++ (if p.desc_line2.isEmpty then [] else '\n' :: p.desc_line2))⟩,
    description_line1 := ⟨p.desc_line1⟩, description_line2 := ⟨p.desc_line2⟩,
    cheque_ref := ⟨p.cheque_ref⟩, debit := mov.1, credit := mov.2.1, balance := p.balance,
    orig_debit_text := ⟨mov.2.2.1⟩, orig_credit_text := ⟨mov.2.2.2⟩,
    orig_balance_text := ⟨p.balance_tok⟩ }

/-- The TxnValue segmentation over the normalized lines: the primary
strategy, with the permissive fallback used only when the primary finds
no block (utils.py line 231). -/
def txnValueBlocks (nl : List String) : List TxnRawBlock :=
  let primary := txnSegAux nl.length nl
  if primary.isEmpty then txnFallbackAux nl.length nl else primary

/-- Embedding of `_parse_sbi_txn_value` (utils.py lines 187-401), taking
the extracted text lines of the document. -/
def parse_sbi_txn_value (lines : List String) : ParsedStatement :=
  let nl := normalize_multiline_dates lines
  let m := extractMeta nl
  let txns := (txnValueBlocks nl).map classifyTxnBlock
  let opening :=
    match txns with
    | [] => m.opening_balance
    | t :: _ => if m.opening_balance = 0 then t.balance + t.debit - t.credit
      else m.opening_balance
  let meta0 : Meta := { account_name := m.account_name, account_number := m.account_number,
                        period := m.period, opening_balance := opening,
                        bank := "SBI", layout := SBI_TXN_VALUE }
  { meta := meta0, transactions := txns }

/-- C4 counterexample: the PostValue parser performs no opening-balance
back-fill.  On a document with no opening-balance line whose first (and
only) transaction has `balance = 1000.00`, `debit = 200.00`,
`credit = 0.0`, the parsed opening balance stays `0.0` instead of the
claimed `1200.00`. -/
theorem c4_counterexample :
    (parse_sbi_post_value ["POST DATE VALUE DATE DESCRIPTION", "DEBIT CREDIT BALANCE",
      "01-04-2024 02-04-2024 ATM WDL 200.00 1,000.00"]).meta.opening_balance = 0 ∧
    ((parse_sbi_post_value ["POST DATE VALUE DATE DESCRIPTION", "DEBIT CREDIT BALANCE",
      "01-04-2024 02-04-2024 ATM WDL 200.00 1,000.00"]).transactions.map
      (fun t => (t.balance, t.debit, t.credit))) = [((1000 : ℚ), (200 : ℚ), (0 : ℚ))] ∧
    (0 : ℚ) ≠ 1000 + 200 - 0 := by
  refine ⟨by decide, by decide, by norm_num⟩

/-- C4 amended: only the TxnValue parser back-fills the opening balance.
When the metadata scan leaves `opening_balance` at `0.0` and the parsed
transaction list is non-empty, `_parse_sbi_txn_value` sets it to
`first.balance + first.debit - first.credit`; the PostValue parser keeps
the extracted value unchanged. -/
theorem c4_txn_value_backfills_opening (lines : List String) (t : Txn) (ts : List Txn)
    (h0 : (extractMeta (normalize_multiline_dates lines)).opening_balance = 0)
    (h1 : (parse_sbi_txn_value lines).transactions = t :: ts) :
    (parse_sbi_txn_value lines).meta.opening_balance = t.balance + t.debit - t.credit := by
  simp only [parse_sbi_txn_value] at h1 ⊢
  rw [h1, h0]
  simp

/-- Witness for C4 at a concrete TxnValue document with no
opening-balance line: the back-filled opening balance is
`1000 + 200 - 0 = 1200`. -/
theorem c4_txn_value_backfills_opening_witness :
    (parse_sbi_txn_value ["01-04-2024 02-04-2024 TO TRANSFER 200.00 1,000.00"]).meta.opening_balance =
      (1000 : ℚ) + 200 - 0 :=
  c4_txn_value_backfills_opening ["01-04-2024 02-04-2024 TO TRANSFER 200.00 1,000.00"]
    { date := "01-04-2024", value_date := "02-04-2024", description := "TO TRANSFER",
      description_line1 := "TO TRANSFER", description_line2 := "", cheque_ref := "",
      debit := 200, credit := 0, balance := 1000, orig_debit_text := "200.00",
      orig_credit_text := "", orig_balance_text := "1,000.00" } []
    (by decide) (by decide)

theorem classifyMovementPost_exclusive (d : Bool) (tok : List Char) :
    (classifyMovementPost d tok).1 = 0 ∨ (classifyMovementPost d tok).2 = 0 := by
  unfold classifyMovementPost
  split
  · right; rfl
  · left; rfl

theorem classifyMovementTxn_exclusive (a b c : List Char) :
    (classifyMovementTxn a b c).1 = 0 ∨ (classifyMovementTxn a b c).2.1 = 0 := by
  simp only [classifyMovementTxn]
  split
  · left; rfl
  · split
    · right; rfl
    · split
      · right; rfl
      · split
        · left; rfl
        · split
          · left; rfl
          · right; rfl

theorem classifyPostBlock_movement (b : PostRawBlock) :
    (classifyPostBlock b).debit = 0 ∨ (classifyPostBlock b).credit = 0 := by
  simp only [classifyPostBlock]
  split
  · left; rfl
  · exact classifyMovementPost_exclusive _ _

theorem classifyTxnBlock_movement (b : TxnRawBlock) :
    (classifyTxnBlock b).debit = 0 ∨ (classifyTxnBlock b).credit = 0 := by
  simp only [classifyTxnBlock]
  split
  · exact classifyMovementTxn_exclusive _ _ _
  · left; rfl

/-- C8: every `TransactionRecord` produced by either parser has at most
one non-zero movement: its debit or its credit is `0.0`. -/
theorem c8_movement_mutually_exclusive (lines : List String) (t : Txn)
    (h : t ∈ (parse_sbi_post_value lines).transactions ∨
      t ∈ (parse_sbi_txn_value lines).transactions) :
    t.debit = 0 ∨ t.credit = 0 := by
  rcases h with h | h
  · simp only [parse_sbi_post_value, List.mem_map] at h
    obtain ⟨b, _, rfl⟩ := h
    exact classifyPostBlock_movement b
  · simp only [parse_sbi_txn_value, List.mem_map] at h
    obtain ⟨b, _, rfl⟩ := h
    exact classifyTxnBlock_movement b

/-- Witness for C8 at a concrete parsed transaction. -/
theorem c8_movement_mutually_exclusive_witness :
    ({ date := "01-04-2024", value_date := "02-04-2024", description := "ATM WDL",
       description_line1 := "ATM WDL", description_line2 := "", cheque_ref := "",
       debit := 500, credit := 0, balance := 4500, orig_debit_text := "",
       orig_credit_text := "", orig_balance_text := "4,500.00" } : Txn).debit = 0 ∨
    ({ date := "01-04-2024", value_date := "02-04-2024", description := "ATM WDL",
       description_line1 := "ATM WDL", description_line2 := "", cheque_ref := "",
       debit := 500, credit := 0, balance := 4500, orig_debit_text := "",
       orig_credit_text := "", orig_balance_text := "4,500.00" } : Txn).credit = 0 :=
  c8_movement_mutually_exclusive
    ["POST DATE VALUE DATE DESCRIPTION", "DEBIT CREDIT BALANCE",
      "01-04-2024 02-04-2024 ATM WDL 500.00 4,500.00"] _ (Or.inl (by decide))

/-! ### Dispatcher (utils.py lines 405-434) -/

/-- Outcome of the parsing entry point. -/
inductive ParseOutcome
  | ok (r : ParsedStatement)
  | nameError
  | unsupported
deriving Repr, DecidableEq

/-- Embedding of `parse_pdf_to_data` (utils.py lines 405-434).  The
`SBI_DATE_DETAILS` branch calls `_parse_sbi_date_details`, a function
defined nowhere in the repository, so reaching that branch raises
`NameError` at run time, modelled by `ParseOutcome.nameError`; a
resolved layout outside the three constants raises
`ValueError("Unsupported layout")`, modelled by
`ParseOutcome.unsupported`. -/
def parse_pdf_to_data (lines : List String) (layout : Option String) : ParseOutcome :=
  let nl := normalize_multiline_dates lines
  let use_layout := resolveLayout layout nl
  if use_layout = SBI_POST_VALUE then .ok (parse_sbi_post_value lines)
  else if use_layout = SBI_TXN_VALUE then .ok (parse_sbi_txn_value lines)
  else if use_layout = SBI_DATE_DETAILS then .nameError
  else .unsupported

/-- C5: on a document auto-detected as the DateDetails variant, the
dispatcher selects `SBI_DATE_DETAILS` and then calls the undefined
function `_parse_sbi_date_details` (utils.py line 433), so parsing
raises `NameError` instead of completing — contradicting the claim that
every recognized variant parses without raising. -/
theorem c5_date_details_branch_raises_name_error :
    resolveLayout none (normalize_multiline_dates ["TXN DATE DETAILS"]) = SBI_DATE_DETAILS ∧
    parse_pdf_to_data ["TXN DATE DETAILS"] none = ParseOutcome.nameError := by
  exact ⟨by decide, by decide⟩

/-- The auto-detection only ever produces the three layout constants. -/
theorem autoDetect_cases (lines : List String) :
    autoDetect lines = none ∨ autoDetect lines = some SBI_POST_VALUE ∨
    autoDetect lines = some SBI_TXN_VALUE ∨ autoDetect lines = some SBI_DATE_DETAILS := by
  simp only [autoDetect]
  split_ifs <;> simp

/-- C6: the layout classifier inspects the joined upcased sample of the
first 120 normalized lines, selecting PostValue when it contains
`POST DATE`, `VALUE DATE` and `DESCRIPTION`, else TxnValue when it
contains `TXN DATE` and `VALUE DATE`, else DateDetails when it contains
`TXN DATE` and `DETAILS`, else nothing; the final layout is the
caller-supplied hint (stripped, upcased) when that is non-blank, else
the auto-detected layout, else `SBI_POST_VALUE`. -/
theorem c6_layout_classification_rules (lines : List String) (hint : String) :
    (let s := layoutSample lines
     ((hasSub s "POST DATE".data && hasSub s "VALUE DATE".data &&
        hasSub s "DESCRIPTION".data) = true →
       autoDetect lines = some SBI_POST_VALUE) ∧
     ((hasSub s "POST DATE".data && hasSub s "VALUE DATE".data &&
        hasSub s "DESCRIPTION".data) = false →
      (hasSub s "TXN DATE".data && hasSub s "VALUE DATE".data) = true →
       autoDetect lines = some SBI_TXN_VALUE) ∧
     ((hasSub s "POST DATE".data && hasSub s "VALUE DATE".data &&
        hasSub s "DESCRIPTION".data) = false →
      (hasSub s "TXN DATE".data && hasSub s "VALUE DATE".data) = false →
      (hasSub s "TXN DATE".data && hasSub s "DETAILS".data) = true →
       autoDetect lines = some SBI_DATE_DETAILS) ∧
     ((hasSub s "POST DATE".data && hasSub s "VALUE DATE".data &&
        hasSub s "DESCRIPTION".data) = false →
      (hasSub s "TXN DATE".data && hasSub s "VALUE DATE".data) = false →
      (hasSub s "TXN DATE".data && hasSub s "DETAILS".data) = false →
       autoDetect lines = none)) ∧
    (hint ≠ "" → (⟨(stripL hint.data).map upChar⟩ : String) ≠ "" →
      resolveLayout (some hint) lines = ⟨(stripL hint.data).map upChar⟩) ∧
    resolveLayout none lines = (autoDetect lines).getD SBI_POST_VALUE := by
  refine ⟨⟨?_, ?_, ?_, ?_⟩, ?_, ?_⟩
  · intro h1
    unfold autoDetect
    simp only [h1, if_true]
  · intro h1 h2
    unfold autoDetect
    simp only [h1, h2, Bool.false_eq_true, if_false, if_true]
  · intro h1 h2 h3
    unfold autoDetect
    simp only [h1, h2, h3, Bool.false_eq_true, if_false, if_true]
  · intro h1 h2 h3
    unfold autoDetect
    simp only [h1, h2, h3, Bool.false_eq_true, if_false]
  · intro h1 h2
    simp only [resolveLayout, if_neg h1, if_neg h2]
  · rcases autoDetect_cases lines with h | h | h | h <;>
      simp [resolveLayout, h, SBI_POST_VALUE, SBI_TXN_VALUE, SBI_DATE_DETAILS]

/-- Witness for C6: auto-detection of a TxnValue sample, an explicit
lower-case hint winning over it, and the PostValue default. -/
theorem c6_layout_classification_rules_witness :
    autoDetect ["TXN DATE VALUE DATE"] = some SBI_TXN_VALUE ∧
    resolveLayout (some " sbi_post_value ") ["TXN DATE VALUE DATE"] = "SBI_POST_VALUE" ∧
    resolveLayout none [] = (autoDetect []).getD SBI_POST_VALUE := by
  refine ⟨(c6_layout_classification_rules ["TXN DATE VALUE DATE"] "x").1.2.1
      (by decide) (by decide), ?_, (c6_layout_classification_rules [] "x").2.2⟩
  have h := (c6_layout_classification_rules ["TXN DATE VALUE DATE"] " sbi_post_value ").2.1
    (by decide) (by decide)
  rw [h]
  decide

/-! ### Renderer (utils.py lines 437-776) -/

/-- Python `or` on strings: the first operand unless it is empty. -/
def pyOrS (a b : String) : String := if a = "" then b else a

/-- Non-breaking-space normalization used by the cell splitter. -/
def nbspToSpace (c : Char) : Char := if c = ' ' then ' ' else c

/-- The greedy word-wrap loop of `_make_three_line_cells` (utils.py
lines 455-464): accumulates lines of at most `approx` characters,
stopping early (with Python's dead `cur` recombination reproduced) once
`maxL` lines exist; returns the lines and the pending word buffer. -/
def wrapWordsAux (approx maxL : Nat) (allWords : List (List Char)) :
    List (List Char) → List Char → List (List Char) → List (List Char) × List Char
  | [], cur, lines => (lines, cur)
  | w :: ws, cur, lines =>
    if cur.length + 1 + w.length ≤ approx || cur.isEmpty then
      wrapWordsAux approx maxL allWords ws (stripL (cur ++ ' ' :: w)) lines
    else
      let lines2 := lines ++ [cur]
      if maxL ≤ lines2.length then
        let i := allWords.indexOf w
        let cur2 := if i + 1 < allWords.length
          then w ++ ' ' :: joinWith [' '] (allWords.drop (i + 1)) else w
        (lines2, cur2)
      else wrapWordsAux approx maxL allWords ws w lines2

/-- Pad with empty lines to `maxL` entries and truncate to `maxL`
(utils.py lines 466-473). -/
def padTruncate (maxL : Nat) (lines : List (List Char)) : List (List Char) :=
  (lines ++ List.replicate (maxL - lines.length) []).take maxL

/-- Embedding of `_make_three_line_cells` (utils.py lines 438-473):
three or more slash segments are redistributed over the cell lines,
otherwise the words are wrapped greedily at the character budget. -/
def make_three_line_cells (text : String) (maxL approx : Nat) : List String :=
  if text = "" then List.replicate maxL ""
  else
    let s := stripL (text.data.map nbspToSpace)
    let segs := ((splitOnPred (fun c => c = '/') s).map stripL).filter (fun x => !x.isEmpty)
    if maxL ≤ segs.length then
      let per := max 1 (segs.length / maxL)
      let lines := ((List.range (maxL - 1)).map
          (fun i => joinWith ['/'] ((segs.drop (i * per)).take per))) ++
        [joinWith ['/'] (segs.drop ((maxL - 1) * per))]
      (padTruncate maxL lines).map (fun l => (⟨l⟩ : String))
    else
      let joined := if !segs.isEmpty then joinWith " / ".data segs else s
      let words := wsTokens joined
      let res := wrapWordsAux approx maxL words words [] []
      let lines := if !res.2.isEmpty && res.1.length < maxL then res.1 ++ [res.2] else res.1
      (padTruncate maxL lines).map (fun l => (⟨l⟩ : String))

/-- `re.search((?i)\bUPI\b)`: first boundary-delimited `UPI` occurrence. -/
def searchUPIAux : Nat → List Char → Nat → Bool → Option Nat
  | 0, _, _, _ => none
  | _ + 1, [], _, _ => none
  | f + 1, c :: t, pos, prevWord =>
    if !prevWord && ciPrefix "UPI" (c :: t) && boundaryAt ((c :: t).drop 3) then some pos
    else searchUPIAux f t (pos + 1) (isWordChar c)

/-- See `searchUPIAux`. -/
def searchUPIWord (cs : List Char) : Option Nat := searchUPIAux (cs.length + 1) cs 0 false

/-- The three description sub-lines of one rendered row (utils.py lines
623-668), with the PostValue-only rule that forces the text from a
boundary-delimited `UPI` onward to the second sub-line. -/
def descCellLines (layout : String) (t : Txn) : List String :=
  let df0 := stripL t.description_line1.data
  let desc_full :=
    if t.description_line2 ≠ "" then
      (if !df0.isEmpty then df0 ++ " / ".data ++ stripL t.description_line2.data
       else stripL t.description_line2.data)
    else df0
  let lines3 := make_three_line_cells ⟨desc_full⟩ 3 32
  if layout = SBI_POST_VALUE then
    let full_text := stripL (joinWith [' '] (lines3.map String.data))
    match searchUPIWord full_text with
    | some i => [⟨stripL (full_text.take i)⟩, ⟨stripL (full_text.drop i)⟩, ""]
    | none => lines3
  else lines3

/-- One body row of the rendered table: the values its cells are built
from (utils.py lines 679-698).  The debit and credit cells are the
row's own figures (rendered as text when non-zero), the balance cell is
the recomputed running balance. -/
structure BodyRow where
  date : String
  value_date : String
  descLines : List String
  cheque_ref : String
  debit : ℚ
  credit : ℚ
  balance : ℚ
deriving Repr, DecidableEq, Inhabited

/-- One body row and the updated running balance (utils.py lines
618-698): `running = running - debit + credit`. -/
def renderRow (layout : String) (running : ℚ) (t : Txn) : ℚ × BodyRow :=
  let debit := t.debit
  let credit := t.credit
  let r := running - debit + credit
  (r, { date := t.date, value_date := t.value_date, descLines := descCellLines layout t,
        cheque_ref := t.cheque_ref, debit := debit, credit := credit, balance := r })

/-- The body rows of a transaction list, threading the running balance. -/
def renderRowsAcc (layout : String) : ℚ → List Txn → ℚ × List BodyRow
  | r, [] => (r, [])
  | r, t :: ts =>
    let p := renderRow layout r t
    let q := renderRowsAcc layout p.1 ts
    (q.1, p.2 :: q.2)

/-- One row of the rendered table instruction stream. -/
inductive RenderRow
  | headerRow
  | body (r : BodyRow)
  | blankRow
deriving Repr, DecidableEq

/-- One rendered page: header row, body rows, and for the PostValue
style a trailing blank footer row (utils.py lines 607-616 and 700-701). -/
structure Page where
  rows : List RenderRow
deriving Repr, DecidableEq

/-- Assembly of one page from its body rows. -/
def mkPage (layout : String) (rows : List BodyRow) : Page :=
  { rows := RenderRow.headerRow :: (rows.map RenderRow.body ++
      (if layout = SBI_POST_VALUE then [RenderRow.blankRow] else [])) }

/-- The paginated pages (utils.py line 603): chunks of `n` transactions,
with the running balance carried across pages; the fuel is the number
of remaining transactions. -/
def renderPagesAux (layout : String) (n : Nat) : Nat → ℚ → List Txn → List Page
  | 0, _, _ => []
  | _ + 1, _, [] => []
  | f + 1, r, t :: ts =>
    let chunk := t :: ts.take (n - 1)
    let p := renderRowsAcc layout r chunk
    mkPage layout p.2 :: renderPagesAux layout n f p.1 (ts.drop (n - 1))

/-- The metadata block above the table (utils.py lines 581-595). -/
structure MetaBlock where
  account_name : String
  opening_balance : ℚ
  account_number : String
  period : String
deriving Repr, DecidableEq

/-- The rendered document instruction stream: the optional metadata
block and the pages (each page is stamped with its 1-based number by
the substrate). -/
structure RenderDoc where
  metaBlock : Option MetaBlock
  pages : List Page
deriving Repr, DecidableEq

/-- Embedding of `generate_pdf_from_data` (utils.py lines 477-776),
parameterized by the rows-per-page count: the source computes
`ROWS_PER_PAGE` as `max(6, ...)` or `max(8, ...)` from the fixed A4
geometry in floating point (lines 566-572), so it is always at least 6;
that geometry is abstracted into `rowsPerPage`.  The layout is
`statement_obj.layout or meta.layout or SBI_POST_VALUE` and the running
balance is seeded from `meta.opening_balance` (lines 482 and 574-575). -/
def generate_pdf_from_data (rowsPerPage : Nat) (objLayout : Option String)
    (ps : ParsedStatement) : RenderDoc :=
  let layout := pyOrS (pyOrS (objLayout.getD "") ps.meta.layout) SBI_POST_VALUE
  let opening := ps.meta.opening_balance
  let mb : Option MetaBlock :=
    if ps.meta.account_name ≠ "" ∨ ps.meta.account_number ≠ "" ∨ ps.meta.period ≠ "" then
      some { account_name := ps.meta.account_name, opening_balance := opening,
             account_number := ps.meta.account_number, period := ps.meta.period }
    else none
  { metaBlock := mb,
    pages := renderPagesAux layout rowsPerPage ps.transactions.length opening ps.transactions }

/-- The body rows of one page, in order. -/
def Page.bodyRows (p : Page) : List BodyRow :=
  p.rows.filterMap (fun r => match r with | .body b => some b | _ => none)

/-- The body rows of the whole document, in stream order. -/
def RenderDoc.bodyRows (d : RenderDoc) : List BodyRow :=
  (d.pages.map Page.bodyRows).flatten

theorem bodyRows_mkPage (layout : String) (rows : List BodyRow) :
    (mkPage layout rows).bodyRows = rows := by
  simp only [mkPage, Page.bodyRows, List.filterMap_cons, List.filterMap_append, List.filterMap_map]
  have h1 : List.filterMap
      ((fun r => match r with | .body b => some b | _ => none) ∘ RenderRow.body) rows = rows := by
    rw [show ((fun (r : RenderRow) => match r with | .body b => some b | _ => none) ∘
      RenderRow.body) = some from rfl]
    exact List.filterMap_some rows
  rw [h1]
  split <;> simp

theorem renderRowsAcc_append (layout : String) (a b : List Txn) : ∀ r : ℚ,
    renderRowsAcc layout r (a ++ b) =
      ((renderRowsAcc layout (renderRowsAcc layout r a).1 b).1,
       (renderRowsAcc layout r a).2 ++ (renderRowsAcc layout (renderRowsAcc layout r a).1 b).2) := by
  induction a with
  | nil => intro r; simp [renderRowsAcc]
  | cons t ts ih =>
    intro r
    simp only [List.cons_append, renderRowsAcc]
    simp only [List.append_eq]
    rw [ih]

theorem bodyRows_renderPagesAux (layout : String) (n : Nat) : ∀ f : Nat, ∀ r : ℚ,
    ∀ l : List Txn, l.length ≤ f →
    ((renderPagesAux layout n f r l).map Page.bodyRows).flatten = (renderRowsAcc layout r l).2 := by
  intro f
  induction f with
  | zero =>
    intro r l hl
    have : l = [] := List.eq_nil_of_length_eq_zero (Nat.le_zero.mp hl)
    subst this
    rfl
  | succ f ih =>
    intro r l hl
    match l with
    | [] => rfl
    | t :: ts =>
      simp only [renderPagesAux, List.map_cons, List.flatten_cons, bodyRows_mkPage]
      rw [ih _ (ts.drop (n - 1)) (by
        simp only [List.length_cons] at hl
        calc (ts.drop (n - 1)).length ≤ ts.length := by
              rw [List.length_drop]; omega
          _ ≤ f := by omega)]
      conv_rhs => rw [show t :: ts = (t :: ts.take (n - 1)) ++ ts.drop (n - 1) from by
        rw [List.cons_append, List.take_append_drop]]
      rw [renderRowsAcc_append]

theorem renderRowsAcc_length (layout : String) : ∀ l : List Txn, ∀ r : ℚ,
    (renderRowsAcc layout r l).2.length = l.length := by
  intro l
  induction l with
  | nil => intro r; rfl
  | cons t ts ih => intro r; simp only [renderRowsAcc, List.length_cons, ih]

theorem renderRowsAcc_getD (layout : String) : ∀ l : List Txn, ∀ r : ℚ, ∀ i : Nat,
    i < l.length →
    ((renderRowsAcc layout r l).2.getD i default).debit = (l.getD i default).debit ∧
    ((renderRowsAcc layout r l).2.getD i default).credit = (l.getD i default).credit ∧
    ((renderRowsAcc layout r l).2.getD i default).balance =
      r + ((l.take (i + 1)).map (fun t => t.credit - t.debit)).sum := by
  intro l
  induction l with
  | nil =>
    intro r i hi
    simp at hi
  | cons t ts ih =>
    intro r i hi
    cases i with
    | zero =>
      refine ⟨rfl, rfl, ?_⟩
      show (renderRow layout r t).2.balance = _
      simp only [renderRow, List.take_succ_cons, List.take_zero, List.map_cons, List.map_nil,
        List.sum_cons, List.sum_nil]
      ring
    | succ j =>
      simp only [List.length_cons, Nat.succ_lt_succ_iff] at hi
      have hrec := ih (renderRow layout r t).1 j hi
      simp only [renderRowsAcc, List.getD_cons_succ]
      refine ⟨hrec.1, hrec.2.1, ?_⟩
      rw [hrec.2.2]
      simp only [renderRow, List.take_succ_cons, List.map_cons, List.sum_cons]
      ring

/-- C1: the renderer's carried running total is seeded from
`opening_balance` and updated per row as `running = running - debit +
credit`, so after row `i` the balance cell equals
`B + Σ over the first i+1 rows of (credit - debit)`, independent of the
rows' stored `balance` fields. -/
theorem c1_running_balance (rowsPerPage : Nat) (objLayout : Option String)
    (ps : ParsedStatement) (i : Nat) (_hn : 0 < rowsPerPage)
    (hi : i < ps.transactions.length) :
    (((generate_pdf_from_data rowsPerPage objLayout ps).bodyRows.getD i default).balance) =
      ps.meta.opening_balance +
        ((ps.transactions.take (i + 1)).map (fun t => t.credit - t.debit)).sum := by
  have hb : (generate_pdf_from_data rowsPerPage objLayout ps).bodyRows =
      (renderRowsAcc (pyOrS (pyOrS (objLayout.getD "") ps.meta.layout) SBI_POST_VALUE)
        ps.meta.opening_balance ps.transactions).2 := by
    simp only [generate_pdf_from_data, RenderDoc.bodyRows]
    exact bodyRows_renderPagesAux _ _ _ _ _ (Nat.le_refl _)
  rw [hb]
  exact (renderRowsAcc_getD _ _ _ _ hi).2.2

/-- A concrete two-row statement used to witness the renderer theorems. -/
def psTwoRows : ParsedStatement :=
  { meta := { account_name := "", account_number := "", period := "",
              opening_balance := 100, bank := "SBI", layout := "SBI_POST_VALUE" },
    transactions :=
      [{ date := "d1", value_date := "v1", description := "", description_line1 := "",
         description_line2 := "", cheque_ref := "", debit := 30, credit := 0,
         balance := 999, orig_debit_text := "", orig_credit_text := "",
         orig_balance_text := "" },
       { date := "d2", value_date := "v2", description := "", description_line1 := "",
         description_line2 := "", cheque_ref := "", debit := 0, credit := 50,
         balance := 5, orig_debit_text := "", orig_credit_text := "",
         orig_balance_text := "" }] }

/-- Witness for C1 at a concrete two-row statement and the PostValue
page size 24. -/
theorem c1_running_balance_witness :
    ((generate_pdf_from_data 24 none psTwoRows).bodyRows.getD 1 default).balance =
      psTwoRows.meta.opening_balance +
        ((psTwoRows.transactions.take 2).map (fun t => t.credit - t.debit)).sum :=
  c1_running_balance 24 none psTwoRows 1 (by decide) (by decide)

/-- A concrete one-row statement whose stored balance disagrees with the
recomputed running balance. -/
def psStoredBalance : ParsedStatement :=
  { meta := { account_name := "", account_number := "", period := "",
              opening_balance := 0, bank := "SBI", layout := "SBI_POST_VALUE" },
    transactions :=
      [{ date := "d", value_date := "v", description := "", description_line1 := "",
         description_line2 := "", cheque_ref := "", debit := 0, credit := 0,
         balance := 1000, orig_debit_text := "", orig_credit_text := "",
         orig_balance_text := "" }] }

/-- C2 counterexample: the renderer balance cell does not carry the
row supplied `balance` value; it carries the recomputed running
balance.  With opening balance `0` and a single no-movement row whose
stored balance is `1000`, the rendered balance cell is `0`. -/
theorem c2_counterexample :
    ((generate_pdf_from_data 24 none psStoredBalance).bodyRows.getD 0 default).balance ≠
      (psStoredBalance.transactions.getD 0 default).balance := by
  have hb : (generate_pdf_from_data 24 none psStoredBalance).bodyRows =
      (renderRowsAcc (pyOrS (pyOrS ((none : Option String).getD "") psStoredBalance.meta.layout)
        SBI_POST_VALUE) psStoredBalance.meta.opening_balance psStoredBalance.transactions).2 := by
    simp only [generate_pdf_from_data, RenderDoc.bodyRows]
    exact bodyRows_renderPagesAux _ _ _ _ _ (Nat.le_refl _)
  rw [hb, (renderRowsAcc_getD _ _ _ 0 (by simp [psStoredBalance])).2.2]
  simp [psStoredBalance]

/-- C2 amended: the renderer emits exactly one body row per transaction
and copies each row supplied debit and credit values into the row cells
unchanged; the balance cell, however, carries the recomputed running
balance (equal to the stored `balance` field only when the two agree). -/
theorem c2_renderer_preserves_count_debit_credit (rowsPerPage : Nat)
    (objLayout : Option String) (ps : ParsedStatement) (_hn : 0 < rowsPerPage) :
    (generate_pdf_from_data rowsPerPage objLayout ps).bodyRows.length =
      ps.transactions.length ∧
    ∀ i : Nat, i < ps.transactions.length →
      ((generate_pdf_from_data rowsPerPage objLayout ps).bodyRows.getD i default).debit =
        (ps.transactions.getD i default).debit ∧
      ((generate_pdf_from_data rowsPerPage objLayout ps).bodyRows.getD i default).credit =
        (ps.transactions.getD i default).credit ∧
      ((generate_pdf_from_data rowsPerPage objLayout ps).bodyRows.getD i default).balance =
        ps.meta.opening_balance +
          ((ps.transactions.take (i + 1)).map (fun t => t.credit - t.debit)).sum := by
  have hb : (generate_pdf_from_data rowsPerPage objLayout ps).bodyRows =
      (renderRowsAcc (pyOrS (pyOrS (objLayout.getD "") ps.meta.layout) SBI_POST_VALUE)
        ps.meta.opening_balance ps.transactions).2 := by
    simp only [generate_pdf_from_data, RenderDoc.bodyRows]
    exact bodyRows_renderPagesAux _ _ _ _ _ (Nat.le_refl _)
  rw [hb]
  exact ⟨renderRowsAcc_length _ _ _, fun i hi => renderRowsAcc_getD _ _ _ i hi⟩

/-- Witness for C2 at the concrete two-row statement and the TxnValue
page size 16. -/
theorem c2_renderer_preserves_count_debit_credit_witness :
    (generate_pdf_from_data 16 (some "SBI_TXN_VALUE") psTwoRows).bodyRows.length =
      psTwoRows.transactions.length ∧
    ((generate_pdf_from_data 16 (some "SBI_TXN_VALUE") psTwoRows).bodyRows.getD 0
        default).debit = (psTwoRows.transactions.getD 0 default).debit :=
  ⟨(c2_renderer_preserves_count_debit_credit 16 (some "SBI_TXN_VALUE") psTwoRows
      (by decide)).1,
   ((c2_renderer_preserves_count_debit_credit 16 (some "SBI_TXN_VALUE") psTwoRows
      (by decide)).2 0 (by decide)).1⟩

end StatementEditor

